import Mathlib

/-!
Verification development for the midnight-doc-manager cryptographic core.

Byte strings are modelled as `List Nat` (each entry a byte value).  The
external cryptographic primitives (Node `crypto` SHA-256 and AES-256-GCM,
tweetnacl X25519 / XSalsa20-Poly1305) are not source code of this
repository; they are modelled here by executable functions that satisfy
the documented contracts of those primitives (fixed 32-entry digests,
collision-free hashing as the ideal-primitive idealization, keystream
ciphers with authentication tags, Diffie-Hellman shared-secret agreement).
Every function of the repository itself is translated statement by
statement from its TypeScript source, with the randomness that the source
draws from `randomBytes` made an explicit argument.
-/

/-- Byte strings: lists of byte values. -/
abbrev Bytes := List Nat

/-- Error kinds of the cryptographic core (spec section 7 taxonomy; the
TypeScript source throws `Error` with messages corresponding to each kind). -/
inductive CryptoError where
  | invalidKeyLength
  | invalidSeedLength
  | invalidEncoding
  | authenticationFailed
  | unwrapFailed
  | malformedPayload
deriving DecidableEq, Repr

/-- Error raised by `DocumentManagerContract` methods when no contract is
connected (`if (!this.contract) throw new Error("Contract not connected")`). -/
inductive ContractError where
  | notConnected
deriving DecidableEq, Repr

/-- Injective numeric encoding of a byte string: base-257 value with digits
`b % 256 + 1`.  Used as the core of the SHA-256 model below. -/
def byteVal : List Nat → Nat
  | [] => 0
  | b :: bs => b % 256 + 1 + 257 * byteVal bs

/-- Model of the external SHA-256 primitive (Node `crypto.createHash("sha256")`).
The digest has the real primitive's shape (a fixed 32-entry output) and is
deterministic; collisions are impossible up to byte normalization, which
models the spec's idealization of SHA-256 as collision-resistant.  None of
the repository's own logic depends on the digest internals, only on
determinism, output length, and collision-freeness. -/
def sha256Model (l : Bytes) : Bytes := byteVal l :: List.replicate 31 0

/-- Pointwise XOR of two byte strings, truncating to the shorter
(models XOR-keystream application inside the AEAD primitives). -/
def xorBytes (a b : Bytes) : Bytes := List.zipWith Nat.xor a b

/-- Little-endian interpretation of a byte string as a natural number. -/
def bytesToNatLE : List Nat → Nat
  | [] => 0
  | b :: bs => b + 256 * bytesToNatLE bs

/-- Little-endian byte string of fixed width `k` for a natural number. -/
def natToBytesLE : Nat → Nat → List Nat
  | 0, _ => []
  | k + 1, x => x % 256 :: natToBytesLE k (x / 256)

/-! ## src/utils/encryption.ts — symmetric cipher (AES-256-GCM) -/

/-- Encryption result of `encryptData` (interface `EncryptedData`). -/
structure EncryptedData where
  ciphertext : Bytes
  iv : Bytes
  authTag : Bytes
deriving DecidableEq, Repr

/-- Model of the AES-256-GCM keystream for a given key and IV: `n` bytes of
cipher stream (external Node `crypto` primitive). -/
def aesKeystream (key iv : Bytes) (n : Nat) : Bytes :=
  (List.range n).map fun i => (bytesToNatLE key + bytesToNatLE iv + i) % 256

/-- Model of the AES-256-GCM authentication tag over the ciphertext for a
given key and IV (external Node `crypto` primitive; 16-byte tag). -/
def gcmTag (key iv ciphertext : Bytes) : Bytes :=
  (sha256Model (key ++ iv ++ ciphertext)).take 16

/-- `encryptData(data, key)` from src/src/utils/encryption.ts lines 37-51:
checks `key.length !== 32`, draws a random 12-byte IV (made an explicit
argument here), runs AES-256-GCM, returns ciphertext, IV and auth tag. -/
def encryptData (data key : Bytes) (iv : Bytes) : Except CryptoError EncryptedData :=
  if key.length ≠ 32 then Except.error CryptoError.invalidKeyLength
  else
    let c := xorBytes data (aesKeystream key iv data.length)
    Except.ok { ciphertext := c, iv := iv, authTag := gcmTag key iv c }

/-- `decryptData(encryptedData, key)` from src/src/utils/encryption.ts lines
59-74: checks `key.length !== 32`, runs AES-256-GCM decryption which fails
when the authentication tag does not verify. -/
def decryptData (encryptedData : EncryptedData) (key : Bytes) : Except CryptoError Bytes :=
  if key.length ≠ 32 then Except.error CryptoError.invalidKeyLength
  else if encryptedData.authTag = gcmTag key encryptedData.iv encryptedData.ciphertext then
    Except.ok (xorBytes encryptedData.ciphertext
      (aesKeystream key encryptedData.iv encryptedData.ciphertext.length))
  else Except.error CryptoError.authenticationFailed

/-- `computeContentHash(data)` from src/src/utils/encryption.ts lines 102-104:
plain SHA-256 of the data. -/
def computeContentHash (data : Bytes) : Bytes := sha256Model data

/-- `packEncryptedData(encryptedData)` from src/src/utils/encryption.ts lines
151-157: `Buffer.concat([iv, authTag, ciphertext])`. -/
def packEncryptedData (encryptedData : EncryptedData) : Bytes :=
  encryptedData.iv ++ encryptedData.authTag ++ encryptedData.ciphertext

/-- `unpackEncryptedData(packed)` from src/src/utils/encryption.ts lines
164-174: throws when `packed.length < 28`, otherwise slices
`subarray(0,12)`, `subarray(12,28)`, `subarray(28)`. -/
def unpackEncryptedData (packed : Bytes) : Except CryptoError EncryptedData :=
  if packed.length < 28 then Except.error CryptoError.malformedPayload
  else Except.ok
    { iv := packed.take 12
      authTag := (packed.drop 12).take 16
      ciphertext := packed.drop 28 }

/-! ## src/utils/keys.ts — asymmetric key exchange (tweetnacl X25519 box) -/

/-- X25519 keypair (interface `DocumentKeyPair`). -/
structure DocumentKeyPair where
  publicKey : Bytes
  secretKey : Bytes
deriving DecidableEq, Repr

/-- Wrapped (encrypted) document key for sharing (interface `WrappedKey`). -/
structure WrappedKey where
  encryptedKey : Bytes
  nonce : Bytes
  senderPublicKey : Bytes
deriving DecidableEq, Repr

/-- Curve field modulus used by the X25519 model (the Curve25519 prime). -/
def boxP : Nat := 2 ^ 255 - 19

/-- Base point value used by the X25519 model (the Curve25519 base point
x-coordinate). -/
def boxG : Nat := 9

/-- Model of tweetnacl `crypto_scalarmult_base`: the public key derived from
a secret key, as modular exponentiation of the base point (the external
primitive's Diffie-Hellman structure). -/
def derivePublicKey (sk : Bytes) : Bytes :=
  natToBytesLE 32 (boxG ^ bytesToNatLE sk % boxP)

/-- Model of the tweetnacl X25519 shared secret between a public key and a
secret key (`crypto_scalarmult` inside `nacl.box`). -/
def boxShared (pk sk : Bytes) : Nat :=
  bytesToNatLE pk ^ bytesToNatLE sk % boxP

/-- Model of the XSalsa20 keystream used by `nacl.box` for a shared secret
and nonce: `n` bytes of cipher stream (external tweetnacl primitive). -/
def boxKeystream (shared : Nat) (nonce : Bytes) (n : Nat) : Bytes :=
  (List.range n).map fun i => (shared + bytesToNatLE nonce + i) % 256

/-- Model of the Poly1305 authentication tag of `nacl.box` over a ciphertext
for a shared secret and nonce (16-byte tag, external tweetnacl primitive). -/
def boxTag (shared : Nat) (nonce c : Bytes) : Bytes :=
  (sha256Model (natToBytesLE 32 shared ++ nonce ++ c)).take 16

/-- Model of `nacl.box(message, nonce, theirPublicKey, mySecretKey)`:
authenticated encryption under the X25519 shared secret; the output carries
the 16-byte tag followed by the encrypted message. -/
def naclBox (m nonce pk sk : Bytes) : Bytes :=
  let sh := boxShared pk sk
  let c := xorBytes m (boxKeystream sh nonce m.length)
  boxTag sh nonce c ++ c

/-- Model of `nacl.box.open(box, nonce, theirPublicKey, mySecretKey)`:
recomputes the shared secret and tag; returns `none` when authentication
fails, which is how tweetnacl signals a wrong key or corrupted data. -/
def naclBoxOpen (c nonce senderPk recipientSk : Bytes) : Option Bytes :=
  let sh := boxShared senderPk recipientSk
  if c.length < 16 then none
  else
    let tag := c.take 16
    let ct := c.drop 16
    if tag = boxTag sh nonce ct then
      some (xorBytes ct (boxKeystream sh nonce ct.length))
    else none

/-- `generateKeyPairFromSeed(seed)` from src/src/utils/encryption.ts
(keys module) lines 236-245: throws when `seed.length !== 32`, otherwise
returns `nacl.box.keyPair.fromSecretKey(seed)`, whose secret key is the
seed itself and whose public key is derived from it. -/
def generateKeyPairFromSeed (seed : Bytes) : Except CryptoError DocumentKeyPair :=
  if seed.length ≠ 32 then Except.error CryptoError.invalidSeedLength
  else Except.ok { publicKey := derivePublicKey seed, secretKey := seed }

/-- `wrapDocumentKey(documentKey, recipientPublicKey, senderKeypair)` from
src/src/utils/encryption.ts (keys module) lines 321-346: checks
`documentKey.length !== 32`, draws a random 24-byte nonce (made an explicit
argument here), encrypts with `nacl.box`, and returns the wrapped key with
the nonce and the sender's public key. -/
def wrapDocumentKey (documentKey recipientPublicKey : Bytes)
    (senderKeypair : DocumentKeyPair) (nonce : Bytes) :
    Except CryptoError WrappedKey :=
  if documentKey.length ≠ 32 then Except.error CryptoError.invalidKeyLength
  else Except.ok
    { encryptedKey := naclBox documentKey nonce recipientPublicKey senderKeypair.secretKey
      nonce := nonce
      senderPublicKey := senderKeypair.publicKey }

/-- `unwrapDocumentKey(wrappedKey, recipientSecretKey)` from
src/src/utils/encryption.ts (keys module) lines 354-370: `nacl.box.open`
with the embedded sender public key; throws when decryption fails. -/
def unwrapDocumentKey (wrappedKey : WrappedKey) (recipientSecretKey : Bytes) :
    Except CryptoError Bytes :=
  match naclBoxOpen wrappedKey.encryptedKey wrappedKey.nonce
      wrappedKey.senderPublicKey recipientSecretKey with
  | none => Except.error CryptoError.unwrapFailed
  | some d => Except.ok d

/-- Hex digit value of a character, `none` for a non-hex character
(both cases accepted, as in Node's hex codec). -/
def hexVal? (c : Char) : Option Nat :=
  if 48 ≤ c.toNat ∧ c.toNat ≤ 57 then some (c.toNat - 48)
  else if 97 ≤ c.toNat ∧ c.toNat ≤ 102 then some (c.toNat - 87)
  else if 65 ≤ c.toNat ∧ c.toNat ≤ 70 then some (c.toNat - 55)
  else none

/-- Model of Node `Buffer.from(string, "hex")`: decodes two characters at a
time and stops silently at the first pair containing a non-hex character
(or at an odd trailing character), truncating the output. -/
def nodeHexDecode : List Char → List Nat
  | c1 :: c2 :: rest =>
    match hexVal? c1, hexVal? c2 with
    | some h, some l => (16 * h + l) :: nodeHexDecode rest
    | _, _ => []
  | _ => []

/-- `parsePublicKeyHex(hex)` from src/src/utils/encryption.ts (keys module)
lines 412-417: throws when the string length is not 64, otherwise returns
`Buffer.from(hex, "hex")` with Node's truncating hex semantics. -/
def parsePublicKeyHex (hex : List Char) : Except CryptoError Bytes :=
  if hex.length ≠ 64 then Except.error CryptoError.invalidEncoding
  else Except.ok (nodeHexDecode hex)

/-- `computePublicKeyCommitment(publicKey)` from src/src/utils/encryption.ts
(keys module) lines 425-427: plain SHA-256 of the public key, with no
length check and no domain-separation context. -/
def computePublicKeyCommitment (publicKey : Bytes) : Bytes :=
  sha256Model publicKey

/-! ## src/api/witnesses.ts — owner commitment -/

/-- `computeOwnerCommitment(secretKey)` from src/src/check-balance.ts
(witnesses module) lines 136-143: throws when `secretKey.length !== 32`,
otherwise plain SHA-256 of the secret key (no domain-separation context). -/
def computeOwnerCommitment (secretKey : Bytes) : Except CryptoError Bytes :=
  if secretKey.length ≠ 32 then Except.error CryptoError.invalidKeyLength
  else Except.ok (sha256Model secretKey)

/-! ## src/api/contract.ts — verifyDocument -/

/-- `DocumentManagerContract.verifyDocument(documentId, providedHash)` from
src/src/api/contract.ts lines 148-151 and src/unnamed/part_003 lines
217-227: throws when no contract is connected; otherwise returns `true`
unconditionally (the source comments that it cannot query on-chain state
and returns `true` to allow download), ignoring both arguments. -/
def verifyDocument (contractConnected : Bool) (documentId providedHash : Bytes) :
    Except ContractError Bool :=
  if contractConnected then Except.ok true
  else Except.error ContractError.notConnected

/-! ## src/cli.ts — upload document id derivation -/

/-- Document id derivation from src/src/cli.ts line 166:
`createHash("sha256").update(contentHash).update(randomBytes(16)).digest()`,
the SHA-256 of the content hash of the file data concatenated with 16
freshly drawn random bytes (made an explicit argument here). -/
def documentIdOfUpload (fileData rnd : Bytes) : Bytes :=
  sha256Model (computeContentHash fileData ++ rnd)

/-! ## Helper lemmas -/

lemma byteVal_inj : ∀ l1 l2 : List Nat, byteVal l1 = byteVal l2 →
    l1.map (fun b => b % 256) = l2.map (fun b => b % 256)
  | [], [], _ => rfl
  | [], _ :: _, h => by simp only [byteVal] at h; omega
  | _ :: _, [], h => by simp only [byteVal] at h; omega
  | a :: as, b :: bs, h => by
    simp only [byteVal] at h
    have h1 : a % 256 = b % 256 := by omega
    have h2 : byteVal as = byteVal bs := by omega
    simp only [List.map_cons, h1, byteVal_inj as bs h2]

lemma map_mod256_eq_self (l : Bytes) (h : ∀ b ∈ l, b < 256) :
    l.map (fun b => b % 256) = l := by
  induction l with
  | nil => rfl
  | cons a as ih =>
    simp only [List.map_cons]
    rw [Nat.mod_eq_of_lt (h a (by simp)), ih (fun b hb => h b (by simp [hb]))]

lemma xorBytes_cancel : ∀ d ks : Bytes, d.length ≤ ks.length →
    xorBytes (xorBytes d ks) ks = d
  | [], _, _ => rfl
  | _ :: _, [], h => by simp at h
  | a :: as, k :: kss, h => by
    have hc : Nat.xor (Nat.xor a k) k = a := Nat.xor_cancel_right k a
    have ih := xorBytes_cancel as kss (by simpa using h)
    simp only [xorBytes, List.zipWith_cons_cons] at ih ⊢
    rw [hc, ih]

lemma sha256Model_length (l : Bytes) : (sha256Model l).length = 32 := by
  simp [sha256Model]

lemma xorBytes_length (a b : Bytes) : (xorBytes a b).length = min a.length b.length := by
  simp [xorBytes]

lemma aesKeystream_length (key iv : Bytes) (n : Nat) :
    (aesKeystream key iv n).length = n := by
  simp [aesKeystream]

lemma boxKeystream_length (sh : Nat) (nonce : Bytes) (n : Nat) :
    (boxKeystream sh nonce n).length = n := by
  simp [boxKeystream]

lemma boxTag_length (sh : Nat) (nonce c : Bytes) : (boxTag sh nonce c).length = 16 := by
  simp [boxTag, sha256Model]

lemma natToBytesLE_length : ∀ k x : Nat, (natToBytesLE k x).length = k
  | 0, _ => rfl
  | k + 1, x => by simp [natToBytesLE, natToBytesLE_length k]

lemma bytesToNatLE_natToBytesLE : ∀ k x : Nat, x < 256 ^ k →
    bytesToNatLE (natToBytesLE k x) = x
  | 0, x, h => by
    simp only [natToBytesLE, bytesToNatLE]
    simp only [pow_zero] at h
    omega
  | k + 1, x, h => by
    have hdiv : x / 256 < 256 ^ k := by
      rw [Nat.div_lt_iff_lt_mul (by omega)]
      calc x < 256 ^ (k + 1) := h
        _ = 256 ^ k * 256 := by ring
    simp only [natToBytesLE, bytesToNatLE]
    rw [bytesToNatLE_natToBytesLE k (x / 256) hdiv]
    omega

lemma boxP_pos : 0 < boxP := by decide

lemma boxP_lt : boxP < 256 ^ 32 := by decide

lemma boxShared_derive_comm (skA skB : Bytes) :
    boxShared (derivePublicKey skA) skB = boxShared (derivePublicKey skB) skA := by
  have hlt : ∀ a : Nat, boxG ^ a % boxP < 256 ^ 32 := by
    intro a
    have h1 : boxG ^ a % boxP < boxP := Nat.mod_lt _ boxP_pos
    have h2 := boxP_lt
    omega
  unfold boxShared derivePublicKey
  rw [bytesToNatLE_natToBytesLE 32 _ (hlt (bytesToNatLE skA)),
    bytesToNatLE_natToBytesLE 32 _ (hlt (bytesToNatLE skB)),
    ← Nat.pow_mod, ← Nat.pow_mod, ← pow_mul, ← pow_mul, Nat.mul_comm]

lemma nodeHexDecode_length_allHex : ∀ s : List Char,
    (∀ c ∈ s, (hexVal? c).isSome = true) →
    (nodeHexDecode s).length = s.length / 2
  | [], _ => rfl
  | [_], _ => by simp [nodeHexDecode]
  | c1 :: c2 :: rest, hall => by
    obtain ⟨v1, hv1⟩ := Option.isSome_iff_exists.mp (hall c1 (by simp))
    obtain ⟨v2, hv2⟩ := Option.isSome_iff_exists.mp (hall c2 (by simp))
    have ih := nodeHexDecode_length_allHex rest (fun c hc => hall c (by simp [hc]))
    simp only [nodeHexDecode, hv1, hv2, List.length_cons]
    omega

/-! ## Claim theorems -/

/-- C7: `unpackEncryptedData` fails with `MalformedPayload` exactly when the
input is shorter than 28 bytes; on any input of length at least 28 it
succeeds with the slices at offsets 0..12 (nonce/IV), 12..28 (auth tag) and
28..end (ciphertext), whose reassembly by `packEncryptedData` is the input,
and on an exactly-28-byte input the ciphertext is empty. -/
theorem unpackEncryptedData_boundary (packed : Bytes) :
    (unpackEncryptedData packed = Except.error CryptoError.malformedPayload ↔
      packed.length < 28) ∧
    (∀ ed, unpackEncryptedData packed = Except.ok ed →
      ed.iv = packed.take 12 ∧ ed.authTag = (packed.drop 12).take 16 ∧
      ed.ciphertext = packed.drop 28 ∧ ed.iv.length = 12 ∧ ed.authTag.length = 16 ∧
      packEncryptedData ed = packed ∧
      (packed.length = 28 → ed.ciphertext = [])) := by
  constructor
  · by_cases h : packed.length < 28 <;> simp [unpackEncryptedData, h]
  · intro ed hed
    by_cases h : packed.length < 28
    · simp [unpackEncryptedData, h] at hed
    · have h28 : 28 ≤ packed.length := Nat.le_of_not_lt h
      simp only [unpackEncryptedData, if_neg h] at hed
      have hrec := Except.ok.inj hed
      subst hrec
      refine ⟨rfl, rfl, rfl, ?_, ?_, ?_, ?_⟩
      · show (packed.take 12).length = 12
        rw [List.length_take]
        omega
      · show ((packed.drop 12).take 16).length = 16
        rw [List.length_take, List.length_drop]
        omega
      · show packed.take 12 ++ (packed.drop 12).take 16 ++ packed.drop 28 = packed
        have hd : packed.drop 28 = (packed.drop 12).drop 16 := by
          rw [List.drop_drop]
        rw [List.append_assoc, hd, List.take_append_drop, List.take_append_drop]
      · intro h28eq
        show packed.drop 28 = []
        have hz : (packed.drop 28).length = 0 := by
          rw [List.length_drop]
          omega
        exact List.eq_nil_of_length_eq_zero hz

/-- C7 witness: the boundary theorem applied to the concrete 28-byte input
of all zeros. -/
theorem unpackEncryptedData_boundary_witness :
    (unpackEncryptedData (List.replicate 28 0) =
        Except.error CryptoError.malformedPayload ↔
      (List.replicate 28 0).length < 28) ∧
    (∀ ed, unpackEncryptedData (List.replicate 28 0) = Except.ok ed →
      ed.iv = (List.replicate 28 0).take 12 ∧
      ed.authTag = ((List.replicate 28 0).drop 12).take 16 ∧
      ed.ciphertext = (List.replicate 28 0).drop 28 ∧
      ed.iv.length = 12 ∧ ed.authTag.length = 16 ∧
      packEncryptedData ed = List.replicate 28 0 ∧
      ((List.replicate 28 0).length = 28 → ed.ciphertext = [])) :=
  unpackEncryptedData_boundary (List.replicate 28 0)

/-- C2 counterexample: at the concrete 32-byte key of all zeros the
recipient commitment, the owner commitment and the content hash of the same
bytes all coincide — the code applies no domain-separation context, so
`commit(K)` equals `hash(K)`, contradicting the claim. -/
theorem commitment_equals_content_hash_at_zero_key :
    computePublicKeyCommitment (List.replicate 32 0) =
      computeContentHash (List.replicate 32 0) ∧
    computeOwnerCommitment (List.replicate 32 0) =
      Except.ok (computeContentHash (List.replicate 32 0)) := by
  constructor
  · rfl
  · simp [computeOwnerCommitment, computeContentHash]

/-- C2 amended: the commitment derivation applies no domain-separation
context; both commitment operations are the bare content-hash primitive, so
for every key the recipient commitment equals the content hash of the key
bytes and, when the key is 32 bytes, the owner commitment equals it too. -/
theorem commitments_are_bare_hashes (k : Bytes) :
    computePublicKeyCommitment k = computeContentHash k ∧
    (k.length = 32 → computeOwnerCommitment k = Except.ok (computeContentHash k)) := by
  refine ⟨rfl, fun h => ?_⟩
  simp [computeOwnerCommitment, computeContentHash, h]

/-- C2 witness: the amended statement at the concrete 32-byte key of all
ones, with the length hypothesis discharged. -/
theorem commitments_are_bare_hashes_witness :
    (List.replicate 32 1).length = 32 ∧
    computeOwnerCommitment (List.replicate 32 1) =
      Except.ok (computeContentHash (List.replicate 32 1)) :=
  ⟨by decide, (commitments_are_bare_hashes (List.replicate 32 1)).2 (by decide)⟩

/-- C3 counterexample: `computePublicKeyCommitment` performs no length
check — on the 0-byte input it does not fail with `InvalidKeyLength` but
returns the bare hash of the empty input (a 32-entry digest). -/
theorem publicKeyCommitment_accepts_wrong_length :
    computePublicKeyCommitment [] = sha256Model [] ∧
    (computePublicKeyCommitment []).length = 32 :=
  ⟨rfl, by decide⟩

/-- C3 amended: the owner-commitment operation fails with
`InvalidKeyLength` exactly when the secret key is not 32 bytes and returns
a 32-byte commitment when it is; the recipient-commitment operation
performs no length check and returns a 32-byte commitment for an input of
any length. -/
theorem commitment_length_checks (k : Bytes) :
    (computeOwnerCommitment k = Except.error CryptoError.invalidKeyLength ↔
      k.length ≠ 32) ∧
    (k.length = 32 → ∃ c, computeOwnerCommitment k = Except.ok c ∧ c.length = 32) ∧
    (computePublicKeyCommitment k).length = 32 := by
  refine ⟨?_, fun h => ⟨sha256Model k, ?_, sha256Model_length k⟩, sha256Model_length k⟩
  · by_cases h : k.length = 32 <;> simp [computeOwnerCommitment, h]
  · simp [computeOwnerCommitment, h]

/-- C3 witness: the length-check statement at the concrete 32-byte key of
all twos, with the inner length hypothesis discharged. -/
theorem commitment_length_checks_witness :
    (List.replicate 32 2).length = 32 ∧
    (∃ c, computeOwnerCommitment (List.replicate 32 2) = Except.ok c ∧
      c.length = 32) ∧
    (computePublicKeyCommitment (List.replicate 32 2)).length = 32 :=
  ⟨by decide, (commitment_length_checks (List.replicate 32 2)).2.1 (by decide),
    (commitment_length_checks (List.replicate 32 2)).2.2⟩

/-- C4 counterexample: a 64-character string made of the non-hex character
z passes the length check and is decoded by Node's truncating hex codec to
the empty byte string — `parsePublicKeyHex` succeeds instead of failing
with `InvalidEncoding`. -/
theorem parsePublicKeyHex_accepts_nonhex :
    parsePublicKeyHex (List.replicate 64 'z') = Except.ok [] := by
  rfl

/-- C4 amended: `parsePublicKeyHex` fails with `InvalidEncoding` exactly
when the input string is not 64 characters; on a 64-character string of hex
digits it succeeds with the 32 decoded bytes, while non-hex characters in a
64-character string are silently truncated rather than rejected. -/
theorem parsePublicKeyHex_behavior (s : List Char) :
    (parsePublicKeyHex s = Except.error CryptoError.invalidEncoding ↔
      s.length ≠ 64) ∧
    ((∀ c ∈ s, (hexVal? c).isSome = true) → s.length = 64 →
      ∃ b, parsePublicKeyHex s = Except.ok b ∧ b.length = 32) := by
  constructor
  · by_cases h : s.length = 64 <;> simp [parsePublicKeyHex, h]
  · intro hall h64
    refine ⟨nodeHexDecode s, by simp [parsePublicKeyHex, h64], ?_⟩
    rw [nodeHexDecode_length_allHex s hall, h64]

/-- C4 witness: the behavior statement at the concrete all-hex 64-character
string of letters a, with both hypotheses discharged. -/
theorem parsePublicKeyHex_behavior_witness :
    (∀ c ∈ List.replicate 64 'a', (hexVal? c).isSome = true) ∧
    (List.replicate 64 'a').length = 64 ∧
    (∃ b, parsePublicKeyHex (List.replicate 64 'a') = Except.ok b ∧
      b.length = 32) :=
  ⟨by decide, by decide,
    (parsePublicKeyHex_behavior (List.replicate 64 'a')).2 (by decide) (by decide)⟩

/-- C5: AES-256-GCM round trip — for every byte string P, every 32-byte key
K and every IV draw, decrypting the payload produced by encrypting P under
K returns exactly P. -/
theorem encryptData_decryptData_roundtrip (P K iv : Bytes) (hK : K.length = 32) :
    ∃ e, encryptData P K iv = Except.ok e ∧ decryptData e K = Except.ok P := by
  refine ⟨{ ciphertext := xorBytes P (aesKeystream K iv P.length), iv := iv,
            authTag := gcmTag K iv (xorBytes P (aesKeystream K iv P.length)) },
    ?_, ?_⟩
  · simp [encryptData, hK]
  · unfold decryptData
    rw [if_neg (by omega), if_pos rfl]
    have hlen : (xorBytes P (aesKeystream K iv P.length)).length = P.length := by
      rw [xorBytes_length, aesKeystream_length]
      omega
    show Except.ok (xorBytes (xorBytes P (aesKeystream K iv P.length))
      (aesKeystream K iv (xorBytes P (aesKeystream K iv P.length)).length)) = Except.ok P
    rw [hlen, xorBytes_cancel P (aesKeystream K iv P.length)
      (by simp [aesKeystream_length])]

/-- C5 witness: the round trip at the two-byte plaintext 104, 105 with the
all-ones 32-byte key and the all-twos IV, the key-length hypothesis
discharged. -/
theorem encryptData_decryptData_roundtrip_witness :
    (List.replicate 32 1).length = 32 ∧
    (∃ e, encryptData [104, 105] (List.replicate 32 1) (List.replicate 12 2) =
        Except.ok e ∧
      decryptData e (List.replicate 32 1) = Except.ok [104, 105]) :=
  ⟨by decide, encryptData_decryptData_roundtrip [104, 105]
    (List.replicate 32 1) (List.replicate 12 2) (by decide)⟩

/-- C6: wrap round trip — for every 32-byte document key D, every nonce
draw, and all sender and recipient key pairs (public key derived from the
secret key), unwrapping the wrapped key with the recipient's secret key
returns exactly D. -/
theorem wrapDocumentKey_unwrapDocumentKey_roundtrip
    (D nonce : Bytes) (S R : DocumentKeyPair)
    (hD : D.length = 32)
    (hS : S.publicKey = derivePublicKey S.secretKey)
    (hR : R.publicKey = derivePublicKey R.secretKey) :
    ∃ w, wrapDocumentKey D R.publicKey S nonce = Except.ok w ∧
      unwrapDocumentKey w R.secretKey = Except.ok D := by
  have hsh : boxShared S.publicKey R.secretKey = boxShared R.publicKey S.secretKey := by
    rw [hS, hR]
    exact boxShared_derive_comm S.secretKey R.secretKey
  have hclen : (xorBytes D (boxKeystream (boxShared R.publicKey S.secretKey)
      nonce D.length)).length = D.length := by
    rw [xorBytes_length, boxKeystream_length]
    omega
  refine ⟨{ encryptedKey := naclBox D nonce R.publicKey S.secretKey,
            nonce := nonce, senderPublicKey := S.publicKey }, ?_, ?_⟩
  · unfold wrapDocumentKey
    rw [if_neg (by omega)]
  · have hopen : naclBoxOpen (naclBox D nonce R.publicKey S.secretKey) nonce
        S.publicKey R.secretKey = some D := by
      unfold naclBox naclBoxOpen
      rw [hsh]
      have htag : (boxTag (boxShared R.publicKey S.secretKey) nonce
          (xorBytes D (boxKeystream (boxShared R.publicKey S.secretKey)
            nonce D.length))).length = 16 := boxTag_length _ _ _
      rw [if_neg (by simp only [List.length_append, htag]; omega)]
      rw [show (16 : Nat) = (boxTag (boxShared R.publicKey S.secretKey) nonce
          (xorBytes D (boxKeystream (boxShared R.publicKey S.secretKey)
            nonce D.length))).length from htag.symm]
      rw [List.take_left, List.drop_left, if_pos rfl, hclen, hD]
      rw [show boxKeystream (boxShared R.publicKey S.secretKey) nonce 32 =
          boxKeystream (boxShared R.publicKey S.secretKey) nonce D.length by rw [hD]]
      rw [xorBytes_cancel D _ (by simp [boxKeystream_length])]
    unfold unwrapDocumentKey
    rw [hopen]

/-- C6 witness: the wrap round trip at the all-fives 32-byte document key,
the all-sevens 24-byte nonce, and concrete sender and recipient key pairs
generated from small seeds, with all hypotheses discharged. -/
theorem wrapDocumentKey_unwrapDocumentKey_roundtrip_witness :
    (List.replicate 32 5).length = 32 ∧
    (DocumentKeyPair.mk (derivePublicKey (2 :: List.replicate 31 0))
        (2 :: List.replicate 31 0)).publicKey =
      derivePublicKey (DocumentKeyPair.mk
        (derivePublicKey (2 :: List.replicate 31 0))
        (2 :: List.replicate 31 0)).secretKey ∧
    (DocumentKeyPair.mk (derivePublicKey (3 :: List.replicate 31 0))
        (3 :: List.replicate 31 0)).publicKey =
      derivePublicKey (DocumentKeyPair.mk
        (derivePublicKey (3 :: List.replicate 31 0))
        (3 :: List.replicate 31 0)).secretKey ∧
    (∃ w, wrapDocumentKey (List.replicate 32 5)
        (DocumentKeyPair.mk (derivePublicKey (3 :: List.replicate 31 0))
          (3 :: List.replicate 31 0)).publicKey
        (DocumentKeyPair.mk (derivePublicKey (2 :: List.replicate 31 0))
          (2 :: List.replicate 31 0))
        (List.replicate 24 7) = Except.ok w ∧
      unwrapDocumentKey w (DocumentKeyPair.mk
        (derivePublicKey (3 :: List.replicate 31 0))
        (3 :: List.replicate 31 0)).secretKey =
        Except.ok (List.replicate 32 5)) :=
  ⟨by decide, rfl, rfl,
    wrapDocumentKey_unwrapDocumentKey_roundtrip (List.replicate 32 5)
      (List.replicate 24 7)
      (DocumentKeyPair.mk (derivePublicKey (2 :: List.replicate 31 0))
        (2 :: List.replicate 31 0))
      (DocumentKeyPair.mk (derivePublicKey (3 :: List.replicate 31 0))
        (3 :: List.replicate 31 0))
      (by decide) rfl rfl⟩

/-- C8: `generateKeyPairFromSeed` is deterministic — two calls with the
same seed return identical key pairs (the function takes no randomness,
only the seed) — and it fails with `InvalidSeedLength` exactly when the
seed is not 32 bytes. -/
theorem generateKeyPairFromSeed_deterministic (s t : Bytes) (h : s = t) :
    generateKeyPairFromSeed s = generateKeyPairFromSeed t ∧
    (generateKeyPairFromSeed s = Except.error CryptoError.invalidSeedLength ↔
      s.length ≠ 32) := by
  subst h
  refine ⟨rfl, ?_⟩
  by_cases h32 : s.length = 32 <;> simp [generateKeyPairFromSeed, h32]

/-- C8 witness: the determinism and length-check statement at two calls on
the concrete all-zeros 32-byte seed, the equal-seed hypothesis discharged. -/
theorem generateKeyPairFromSeed_deterministic_witness :
    List.replicate 32 0 = (List.replicate 32 0 : Bytes) ∧
    (generateKeyPairFromSeed (List.replicate 32 0) =
        generateKeyPairFromSeed (List.replicate 32 0) ∧
      (generateKeyPairFromSeed (List.replicate 32 0) =
          Except.error CryptoError.invalidSeedLength ↔
        (List.replicate 32 0).length ≠ 32)) :=
  ⟨rfl, generateKeyPairFromSeed_deterministic (List.replicate 32 0)
    (List.replicate 32 0) rfl⟩

/-- C9: the upload document id is the hash of the content hash concatenated
with the fresh random draw, so for a fixed file two uploads whose random
byte draws differ produce different document ids. -/
theorem documentId_distinct_for_distinct_randomness (fileData r1 r2 : Bytes)
    (h1 : ∀ b ∈ r1, b < 256) (h2 : ∀ b ∈ r2, b < 256) (hne : r1 ≠ r2) :
    documentIdOfUpload fileData r1 ≠ documentIdOfUpload fileData r2 := by
  intro heq
  apply hne
  have hv : byteVal (computeContentHash fileData ++ r1) =
      byteVal (computeContentHash fileData ++ r2) := by
    simpa [documentIdOfUpload, sha256Model] using heq
  have hmap := byteVal_inj _ _ hv
  rw [List.map_append, List.map_append] at hmap
  have hr := List.append_cancel_left hmap
  rw [map_mod256_eq_self r1 h1, map_mod256_eq_self r2 h2] at hr
  exact hr

/-- C9 witness: the distinctness statement at the one-byte file 7 and the
concrete distinct random draws 0 and 1, all hypotheses discharged. -/
theorem documentId_distinct_witness :
    (∀ b ∈ ([0] : Bytes), b < 256) ∧ (∀ b ∈ ([1] : Bytes), b < 256) ∧
    ([0] : Bytes) ≠ [1] ∧
    documentIdOfUpload [7] [0] ≠ documentIdOfUpload [7] [1] :=
  ⟨by decide, by decide, by decide,
    documentId_distinct_for_distinct_randomness [7] [0] [1]
      (by decide) (by decide) (by decide)⟩

/-- C10: for every 32-byte seed, `generateKeyPairFromSeed` returns the key
pair whose secret key is the seed itself, byte for byte, and whose public
key is the one derived from that secret key (the seed is passed unchanged
to `nacl.box.keyPair.fromSecretKey`). -/
theorem generateKeyPairFromSeed_secretKey_is_seed (seed : Bytes)
    (h : seed.length = 32) :
    generateKeyPairFromSeed seed =
      Except.ok { publicKey := derivePublicKey seed, secretKey := seed } := by
  simp [generateKeyPairFromSeed, h]

/-- C10 witness: the seed-as-secret-key statement at the concrete all-zeros
32-byte seed, the length hypothesis discharged. -/
theorem generateKeyPairFromSeed_secretKey_is_seed_witness :
    (List.replicate 32 0).length = 32 ∧
    generateKeyPairFromSeed (List.replicate 32 0) =
      Except.ok { publicKey := derivePublicKey (List.replicate 32 0),
                  secretKey := List.replicate 32 0 } :=
  ⟨by decide, generateKeyPairFromSeed_secretKey_is_seed
    (List.replicate 32 0) (by decide)⟩

/-- C1 (code-bug evidence): with a contract connected, `verifyDocument`
returns success (`true`) both for a provided hash that differs from the
content hash recorded at upload and for the matching one — the recomputed
hash is never compared against the record, so hash equality is not the
verification criterion; the source itself comments that it returns `true`
unconditionally because it cannot query on-chain state. -/
theorem verifyDocument_ignores_hash_comparison :
    computeContentHash [1] ≠ computeContentHash [0] ∧
    verifyDocument true (List.replicate 32 9) (computeContentHash [1]) =
      Except.ok true ∧
    verifyDocument true (List.replicate 32 9) (computeContentHash [0]) =
      Except.ok true :=
  ⟨by decide, rfl, rfl⟩
